import Mathlib

/-!
Shallow embedding of the REDasm core covered by the specification:
the instruction/operand data model (`redasm.h`), the instruction text
printer (`printer.cpp`) and the PE import-descriptor walk (`pe.h`),
together with theorems settling the behavioural claims about them.

Machine integers are modelled as `Nat`/`Int`; the one narrowing
conversion that decides a behavioural claim — the `u16` cast applied to
a resolved import ordinal in `PeFormat::readDescriptor` — is modelled
explicitly as `% 65536`.  The 64-bit value stored in an `Operand`'s
union is kept as its unsigned bit pattern (`u_value : Nat`, range
`[0, 2^64)`), with the signed view recovered by two's complement.
-/

namespace REDasm

/-- `REGISTER_INVALID`: the sentinel register id, `static_cast<s64>(-1)`. -/
def REGISTER_INVALID : Int := -1

namespace OperandTypes

/-- `OperandTypes::None`. -/
def NoType : Nat := 0

/-- `OperandTypes::Register`. -/
def Register : Nat := 1

/-- `OperandTypes::Immediate`. -/
def Immediate : Nat := 2

/-- `OperandTypes::Memory` (direct memory pointer). -/
def Memory : Nat := 3

/-- `OperandTypes::Displacement` (indirect memory pointer). -/
def Displacement : Nat := 4

end OperandTypes

/-- `struct RegisterOperand`: a register-kind tag and a register id
(`register_t`, a signed 64-bit id; `-1` is invalid). -/
structure RegisterOperand where
  type : Nat
  r : Int
deriving DecidableEq

/-- Default constructor `RegisterOperand()`: `type(0), r(REGISTER_INVALID)`. -/
def RegisterOperand.invalid : RegisterOperand := ⟨0, REGISTER_INVALID⟩

/-- `RegisterOperand::isValid`: `r != REGISTER_INVALID`. -/
def RegisterOperand.isValid (ro : RegisterOperand) : Bool :=
  ro.r != REGISTER_INVALID

/-- `struct MemoryOperand`: base and index registers, scale (`s32`) and
signed displacement (`s64`). -/
structure MemoryOperand where
  base : RegisterOperand
  index : RegisterOperand
  scale : Int
  displacement : Int
deriving DecidableEq

/-- Default constructor `MemoryOperand()`: `scale(1), displacement(0)`,
base and index default-invalid. -/
def MemoryOperand.default : MemoryOperand :=
  ⟨RegisterOperand.invalid, RegisterOperand.invalid, 1, 0⟩

/-- `MemoryOperand::displacementOnly`: neither base nor index is valid. -/
def MemoryOperand.displacementOnly (m : MemoryOperand) : Bool :=
  !m.base.isValid && !m.index.isValid

/-- The unsigned 64-bit pattern of a signed value (two's complement),
modelling storage of an `s64` into the `s_value`/`u_value` union. -/
def u64OfInt (v : Int) : Nat :=
  (v % ((2 : Int) ^ 64)).toNat

/-- `struct Operand`: a tagged union.  `u_value` is the 64-bit pattern of
the `s_value`/`u_value` union member. -/
structure Operand where
  type : Nat
  pos : Int
  reg : RegisterOperand
  mem : MemoryOperand
  u_value : Nat
deriving DecidableEq

/-- Default constructor `Operand()`: `type(None), pos(-1), u_value(0)`. -/
def Operand.default : Operand :=
  ⟨OperandTypes.NoType, -1, RegisterOperand.invalid, MemoryOperand.default, 0⟩

/-- The signed (`s_value`) view of the operand's union: the two's
complement reading of `u_value`. -/
def Operand.s_value (o : Operand) : Int :=
  if o.u_value < 2 ^ 63 then (o.u_value : Int) else (o.u_value : Int) - 2 ^ 64

/-- `Operand::is(t)`: `type == t`. -/
def Operand.is (o : Operand) (t : Nat) : Bool :=
  o.type == t

/-- `struct Instruction`.  The `std::function free` member and the
`void* userdata` payload pointer are modelled by the booleans
`hasFree` (a release routine is assigned) and `hasUserdata` (the payload
pointer is non-null); the non-owning `Segment*` back-reference is an
abstract optional identifier. -/
structure Instruction where
  mnemonic : String
  signature : String
  operands : List Operand
  comments : List String
  address : Nat
  type : Nat
  size : Nat
  segment : Option Nat
  hasFree : Bool
  hasUserdata : Bool
deriving DecidableEq

/-- Default constructor `Instruction()`: `address(0), type(0), size(0),
segment(NULL), userdata(NULL)`, empty strings/containers, no `free`. -/
def Instruction.default : Instruction :=
  ⟨"", "", [], [], 0, 0, 0, none, false, false⟩

/-- `Instruction::reset`: `type = 0; operands.clear(); if(free && userdata)
{ free(userdata); userdata = NULL; }`.  Returns the new state together
with the number of times the release routine was invoked. -/
def Instruction.reset (insn : Instruction) : Instruction × Nat :=
  if insn.hasFree && insn.hasUserdata then
    ({ insn with type := 0, operands := [], hasUserdata := false }, 1)
  else
    ({ insn with type := 0, operands := [] }, 0)

/-- `Instruction::endAddress`: `address + size`. -/
def Instruction.endAddress (insn : Instruction) : Nat :=
  insn.address + insn.size

/-- `Instruction::cmt`: append a comment. -/
def Instruction.cmt (insn : Instruction) (s : String) : Instruction :=
  { insn with comments := insn.comments ++ [s] }

/-- `Instruction::op`: `op.pos = operands.size(); operands.push_back(op)`. -/
def Instruction.op (insn : Instruction) (o : Operand) : Instruction :=
  { insn with operands :=
      insn.operands ++ [{ o with pos := (insn.operands.length : Int) }] }

/-- `Instruction::mem(v)`: push `Operand(OperandTypes::Memory, v,
operands.size())` where `v` is an `address_t` (`u64`). -/
def Instruction.mem (insn : Instruction) (v : Nat) : Instruction :=
  { insn with operands := insn.operands ++
      [⟨OperandTypes.Memory, (insn.operands.length : Int),
        RegisterOperand.invalid, MemoryOperand.default, v % 2 ^ 64⟩] }

/-- `Instruction::imm(v)`: push `Operand(OperandTypes::Immediate, v,
operands.size())` for a signed value `v`. -/
def Instruction.imm (insn : Instruction) (v : Int) : Instruction :=
  { insn with operands := insn.operands ++
      [⟨OperandTypes.Immediate, (insn.operands.length : Int),
        RegisterOperand.invalid, MemoryOperand.default, u64OfInt v⟩] }

/-- `Instruction::reg(r, type)`: push a Register operand with
`pos = operands.size()` and `reg = RegisterOperand(type, r)`. -/
def Instruction.reg (insn : Instruction) (r : Int) (rtype : Nat) : Instruction :=
  { insn with operands := insn.operands ++
      [⟨OperandTypes.Register, (insn.operands.length : Int),
        ⟨rtype, r⟩, MemoryOperand.default, 0⟩] }

/-- `Instruction::disp(base, index, scale, displacement)`: push a
Displacement operand with `pos = operands.size()` and
`mem = MemoryOperand(RegisterOperand(base), RegisterOperand(index),
scale, displacement)` (the two- and three-argument overloads pass
`index = REGISTER_INVALID` and `scale = 1`). -/
def Instruction.disp (insn : Instruction) (base index : Int) (scale : Int)
    (displacement : Int) : Instruction :=
  { insn with operands := insn.operands ++
      [⟨OperandTypes.Displacement, (insn.operands.length : Int),
        RegisterOperand.invalid, ⟨⟨0, base⟩, ⟨0, index⟩, scale, displacement⟩, 0⟩] }

/-- Modelled from the spec: the Symbol Table (`symboltable.h` is not part
of the analysed sources).  §4.2: `lookup(address) -> optional<Symbol>`;
only the symbol's name is consumed by the printer, so the table is a map
from `u64` address to the optional name at that address. -/
def SymbolTable : Type := Nat → Option String

/-- Modelled from the spec: `REDasm::hex` (`support/utils.h` is not part
of the analysed sources).  It formats a value as a hexadecimal literal
such as `"0x10"`; this is fixed by the spec's printer round-trip example
`"mov eax, [ebx + 0x10]"`. -/
def hexU (n : Nat) : String :=
  "0x" ++ String.mk (Nat.toDigits 16 n)

/-- Modelled from the spec: `REDasm::hex` on a signed value ("signed
formatting for Immediate"): a negative value is rendered as the sign
followed by the hexadecimal literal of its magnitude. -/
def hexS (v : Int) : String :=
  if v < 0 then "-0x" ++ String.mk (Nat.toDigits 16 (-v).toNat)
  else "0x" ++ String.mk (Nat.toDigits 16 v.toNat)

namespace Printer

/-- `Printer::reg` is virtual and supplied by the decoding backend
(`CapstonePrinter::reg` calls `cs_reg_name`); the backend is modelled as
a register-name function applied to the operand's register id. -/
def reg (regName : Int → String) (ro : RegisterOperand) : String :=
  regName ro.r

/-- `Printer::mem` (printer.cpp:58-90): render a Displacement operand's
`MemoryOperand`.  Terms are accumulated into `s`; the `" + "` separator
before the displacement is emitted only when `s` is non-empty and the
displacement is positive or a symbol exists at its value; a non-empty
`s` is wrapped in brackets, an empty one returned as-is. -/
def mem (symtab : SymbolTable) (regName : Int → String)
    (memop : MemoryOperand) : String :=
  let s := if memop.base.isValid then reg regName memop.base else ""
  let s := if memop.index.isValid then
      (if s ≠ "" then s ++ " + " else s) ++ reg regName memop.index ++
        (if memop.scale > 1 then " * " ++ hexS memop.scale else "")
    else s
  let s := if memop.displacement ≠ 0 then
      let symbol := symtab (u64OfInt memop.displacement)
      let s := if s ≠ "" ∧ (memop.displacement > 0 ∨ symbol.isSome)
        then s ++ " + " else s
      s ++ (match symbol with
            | some name => name
            | none => hexS memop.displacement)
    else s
  if s ≠ "" then "[" ++ s ++ "]" else ""

/-- One iteration body of the loop in `Printer::out` (printer.cpp:18-48):
the rendered text of one operand, or `none` when the operand's type
falls through every branch to `continue`. -/
def renderOperand (symtab : SymbolTable) (regName : Int → String)
    (o : Operand) : Option String :=
  if o.is OperandTypes.Immediate || o.is OperandTypes.Memory then
    some (match symtab o.u_value with
          | some symbol => symbol
          | none =>
            if o.is OperandTypes.Immediate then hexS o.s_value
            else hexU o.u_value)
  else if o.is OperandTypes.Displacement then
    some (mem symtab regName o.mem)
  else if o.is OperandTypes.Register then
    some (reg regName o.reg)
  else
    none

/-- The loop of `Printer::out`: before every operand other than the first
the separator `", "` is appended, and then the operand's rendered text —
nothing when the operand hit `continue`, which skips only the text. -/
def outAux (symtab : SymbolTable) (regName : Int → String) :
    Bool → List Operand → String
  | _, [] => ""
  | first, o :: os =>
    (if first then "" else ", ") ++
      (match renderOperand symtab regName o with
       | some t => t
       | none => "") ++ outAux symtab regName false os

/-- `Printer::out` (printer.cpp:10-51): the mnemonic, a space when the
operand list is non-empty, then the loop.  The optional per-operand
callback of the two-argument overload only observes `(operand, opstr)`
pairs and does not contribute to the returned string, so it is not
modelled. -/
def out (symtab : SymbolTable) (regName : Int → String)
    (insn : Instruction) : String :=
  insn.mnemonic ++ (if insn.operands.isEmpty then "" else " ") ++
    outAux symtab regName true insn.operands

end Printer

/-- The kind tag of a defined symbol (`SymbolTypes` lives outside the
analysed sources; the walk only ever defines `SymbolTypes::Import`). -/
inductive SymbolKind where
  | Import
  | Export
deriving DecidableEq

/-- One symbol defined through `defineSymbol(address, name, kind)`. -/
structure PeSymbol where
  address : Nat
  name : String
  kind : SymbolKind
deriving DecidableEq

/-- `struct ImageImportDescriptor` — only the three fields read by
`PeFormat::readDescriptor` (all `u32` RVAs). -/
structure ImageImportDescriptor where
  OriginalFirstThunk : Nat
  Name : Nat
  FirstThunk : Nat
deriving DecidableEq

/-- The external name machinery consumed by the walk: `RVA_POINTER` name
reads and the `PEUtils::importName` / `PEImports::importName` helpers
(`pe_utils.h` / `pe_imports.h` are outside the analysed sources). -/
structure ImportNameEnv where
  /-- The `ImageImportByName::Name` string at a given RVA. -/
  nameAtRva : Nat → String
  /-- `PEImports::importName(dllname, ordinal, out)`: the DLL-specific
  ordinal database; `none` models the `false` return. -/
  ordinalName : String → Nat → Option String
  /-- `PEUtils::importName(dllname, name)`. -/
  mkName : String → String → String
  /-- `PEUtils::importName(dllname, ordinal)`: the fallback name
  synthesized from the DLL name and the numeric ordinal. -/
  mkOrdName : String → Nat → String

/-- `u16 ordinal = (ordinalflag ^ thunk[i])` (pe.h:68): the XOR with the
ordinal-flag pattern, narrowed to `u16`. -/
def resolveOrdinal (ordinalflag thunkvalue : Nat) : Nat :=
  (ordinalflag ^^^ thunkvalue) % 65536

/-- The per-thunk name resolution of `PeFormat::readDescriptor`
(pe.h:61-74): a thunk without the ordinal-flag bit is an RVA to an
`ImageImportByName` record; one with the bit set resolves through the
ordinal database with a synthesized fallback. -/
def resolveThunk (env : ImportNameEnv) (ordinalflag : Nat)
    (descriptorname : String) (t : Nat) : String :=
  if t &&& ordinalflag = 0 then
    env.mkName descriptorname (env.nameAtRva t)
  else
    let ordinal := resolveOrdinal ordinalflag t
    match env.ordinalName descriptorname ordinal with
    | none => env.mkOrdName descriptorname ordinal
    | some resolved => env.mkName descriptorname resolved

/-- The loop `for(size_t i = 0; thunk[i]; i++)` of
`PeFormat::readDescriptor` (pe.h:56-77) over the thunk array, carrying
the running index `i`: it stops at the first zero entry and otherwise
defines an Import symbol at
`imagebase + (FirstThunk + i * sizeof(THUNK))`. -/
def readDescriptorFrom (env : ImportNameEnv) (ordinalflag : Nat)
    (imagebase : Nat) (thunkWidth : Nat) (d : ImageImportDescriptor)
    (descriptorname : String) : Nat → List Nat → List PeSymbol
  | _, [] => []
  | i, t :: ts =>
    if t = 0 then []
    else
      { address := imagebase + (d.FirstThunk + i * thunkWidth),
        name := resolveThunk env ordinalflag descriptorname t,
        kind := SymbolKind.Import } ::
        readDescriptorFrom env ordinalflag imagebase thunkWidth d
          descriptorname (i + 1) ts

/-- The thunk-table RVA selected at pe.h:47-48:
`OriginalFirstThunk ? OriginalFirstThunk : FirstThunk`. -/
def selectedThunkRva (d : ImageImportDescriptor) : Nat :=
  if d.OriginalFirstThunk ≠ 0 then d.OriginalFirstThunk else d.FirstThunk

/-- `PeFormat::readDescriptor<THUNK, ordinalflag>` (pe.h:44-78).
`thunkTable rva` models `RVA_POINTER(THUNK, rva)`: the (finite) thunk
array mapped at the RVA, including its zero terminator when one is in
range.  The descriptor name is the lowercased string at the `Name` RVA
(the `msvbvm` probe only sets the `_petype` hint, which no symbol
depends on, so it is not modelled).  The 32/64-bit instantiations differ
only in `thunkWidth` (4 or 8) and `ordinalflag` (`2^31` or `2^63`, per
the spec, since `loadImports` is outside the analysed sources). -/
def readDescriptor (env : ImportNameEnv) (ordinalflag imagebase : Nat)
    (thunkWidth : Nat) (thunkTable : Nat → List Nat)
    (stringAtRva : Nat → String) (d : ImageImportDescriptor) :
    List PeSymbol :=
  readDescriptorFrom env ordinalflag imagebase thunkWidth d
    (stringAtRva d.Name).toLower 0 (thunkTable (selectedThunkRva d))

/-- One builder-style append operation on an `Instruction`: the generic
`op`, `reg`, `imm`, the direct-memory `mem` and the
base+index*scale+displacement `disp`. -/
inductive BuildStep where
  | opStep (o : Operand)
  | regStep (r : Int) (rtype : Nat)
  | immStep (v : Int)
  | memStep (v : Nat)
  | dispStep (base index scale displacement : Int)
deriving DecidableEq

/-- Apply one builder-style append operation. -/
def applyStep (insn : Instruction) : BuildStep → Instruction
  | .opStep o => insn.op o
  | .regStep r t => insn.reg r t
  | .immStep v => insn.imm v
  | .memStep v => insn.mem v
  | .dispStep b ix sc dp => insn.disp b ix sc dp

/-- An instruction built by a sequence of append operations starting
from a freshly constructed `Instruction`. -/
def build (steps : List BuildStep) : Instruction :=
  steps.foldl applyStep Instruction.default

/-- The suffix part of a `", "`-style join: one separator before every
element.  `String.intercalate sep (a :: as) = a ++ sufJoin sep as`. -/
def sufJoin (s : String) : List String → String
  | [] => ""
  | a :: as => s ++ a ++ sufJoin s as

/-- The rendering format asserted by the spec for `Printer::out`: the
mnemonic followed by the rendered texts of the renderable operands
joined by `", "`, a skipped operand contributing nothing — in
particular no separator.  (Stated from the spec's words, to be compared
against `Printer.out`.) -/
def specOut (symtab : SymbolTable) (regName : Int → String)
    (insn : Instruction) : String :=
  let texts := insn.operands.filterMap (Printer.renderOperand symtab regName)
  insn.mnemonic ++
    (if texts.isEmpty then "" else " " ++ String.intercalate ", " texts)

/-- The rendering format asserted by the spec for `Printer::mem`: the
present terms (base register, index register with its scale suffix,
displacement as symbol-or-hex) joined by `" + "` inside brackets, a
zero displacement omitted, the empty string when no term is present.
(Stated from the spec's words, to be compared against `Printer.mem`.) -/
def specMem (symtab : SymbolTable) (regName : Int → String)
    (memop : MemoryOperand) : String :=
  let terms : List String :=
    (if memop.base.isValid then [Printer.reg regName memop.base] else []) ++
    (if memop.index.isValid then
        [Printer.reg regName memop.index ++
          (if memop.scale > 1 then " * " ++ hexS memop.scale else "")]
      else []) ++
    (if memop.displacement ≠ 0 then
        [match symtab (u64OfInt memop.displacement) with
         | some name => name
         | none => hexS memop.displacement]
      else [])
  if terms.isEmpty then "" else "[" ++ String.intercalate " + " terms ++ "]"

/-- The amended rendering format for `Printer::mem`: as `specMem`,
except that a negative displacement with no symbol defined at its value
is appended without the `" + "` separator (its signed hexadecimal
rendering carries the sign). -/
def specMemAmended (symtab : SymbolTable) (regName : Int → String)
    (memop : MemoryOperand) : String :=
  let regterms : List String :=
    (if memop.base.isValid then [Printer.reg regName memop.base] else []) ++
    (if memop.index.isValid then
        [Printer.reg regName memop.index ++
          (if memop.scale > 1 then " * " ++ hexS memop.scale else "")]
      else [])
  let body := String.intercalate " + " regterms
  let body :=
    if memop.displacement ≠ 0 then
      match symtab (u64OfInt memop.displacement) with
      | some name => if body = "" then name else body ++ " + " ++ name
      | none =>
        if memop.displacement > 0 then
          if body = "" then hexS memop.displacement
          else body ++ " + " ++ hexS memop.displacement
        else body ++ hexS memop.displacement
    else body
  if body = "" then "" else "[" ++ body ++ "]"

/-- A concrete instruction carrying a payload together with a release
routine, used to instantiate the reset behaviour. -/
def payloadInsn : Instruction := { Instruction.default with
  type := 3, operands := [Operand.default],
  hasFree := true, hasUserdata := true }

/-! ## Helper lemmas -/

theorem intercalate_go_eq (s : String) : ∀ (as : List String) (acc : String),
    String.intercalate.go acc s as = acc ++ sufJoin s as := by
  intro as
  induction as with
  | nil => intro acc; simp [String.intercalate.go, sufJoin]
  | cons a as ih =>
    intro acc
    rw [String.intercalate.go, ih, sufJoin]
    simp [String.append_assoc]

theorem intercalate_nil (s : String) : String.intercalate s [] = "" := rfl

theorem intercalate_cons (s a : String) (as : List String) :
    String.intercalate s (a :: as) = a ++ sufJoin s as := by
  simp [String.intercalate, intercalate_go_eq]

theorem string_of_length_zero (str : String) (h : str.length = 0) :
    str = "" := by
  cases str with
  | mk d =>
    cases d with
    | nil => rfl
    | cons c cs => simp [String.length] at h

theorem append_ne_empty_left (a b : String) (h : a ≠ "") : a ++ b ≠ "" := by
  intro hc
  refine h (string_of_length_zero a ?_)
  have hl := congrArg String.length hc
  rw [String.length_append] at hl
  have h0 : ("" : String).length = 0 := rfl
  omega

theorem append_ne_empty_right (a b : String) (h : b ≠ "") : a ++ b ≠ "" := by
  intro hc
  refine h (string_of_length_zero b ?_)
  have hl := congrArg String.length hc
  rw [String.length_append] at hl
  have h0 : ("" : String).length = 0 := rfl
  omega

/-! ## Claim theorems -/

/-- C2 counterexample: with the 32-bit ordinal flag `2^31` and lower
bits `N = 65536 < 2^31`, the extracted ordinal is `0`, not `N`: the
`u16` narrowing in `u16 ordinal = (ordinalflag ^ thunk[i])` truncates
ordinals to 16 bits. -/
theorem c2_resolveOrdinal_cex :
    65536 < 2 ^ 31 ∧
      resolveOrdinal (2 ^ 31) (2 ^ 31 ||| 65536) ≠ 65536 := by
  constructor
  · decide
  · decide

/-- C2 (amended): for a single-bit ordinal flag `2^k` and any lower bits
`N < 2^k`, the extracted ordinal is `N` truncated to 16 bits,
`N % 65536` (so it equals `N` exactly precisely when `N < 2^16`). -/
theorem c2_resolveOrdinal_amended (k N : Nat) (h : N < 2 ^ k) :
    resolveOrdinal (2 ^ k) (2 ^ k ||| N) = N % 65536 := by
  have hx : 2 ^ k ^^^ (2 ^ k ||| N) = N := by
    apply Nat.eq_of_testBit_eq
    intro i
    rcases eq_or_ne k i with rfl | hik
    · simp [Nat.testBit_xor, Nat.testBit_lor, Nat.testBit_two_pow,
        Nat.testBit_lt_two_pow h]
    · simp [Nat.testBit_xor, Nat.testBit_lor, Nat.testBit_two_pow, hik]
  show (2 ^ k ^^^ (2 ^ k ||| N)) % 65536 = N % 65536
  rw [hx]

/-- Witness for C2 (amended) at `k = 31`, `N = 70000`. -/
theorem c2_resolveOrdinal_amended_witness :
    70000 < 2 ^ 31 ∧
      resolveOrdinal (2 ^ 31) (2 ^ 31 ||| 70000) = 70000 % 65536 :=
  ⟨by decide, c2_resolveOrdinal_amended 31 70000 (by decide)⟩

/-- C5: for an Immediate or Memory operand the printer renders the
symbol-table name at the operand's 64-bit value when one is defined and
otherwise falls back to a hexadecimal literal — signed for Immediate,
unsigned for Memory — so the operand always renders to a string. -/
theorem c5_immediate_memory_render (symtab : SymbolTable)
    (regName : Int → String) (o : Operand)
    (h : o.type = OperandTypes.Immediate ∨ o.type = OperandTypes.Memory) :
    Printer.renderOperand symtab regName o =
      some ((symtab o.u_value).getD
        (if o.type = OperandTypes.Immediate then hexS o.s_value
         else hexU o.u_value)) := by
  rcases h with h | h <;>
    simp only [Printer.renderOperand, Operand.is, h, OperandTypes.Immediate,
      OperandTypes.Memory, beq_self_eq_true, Bool.true_or, Bool.or_true,
      if_true, reduceCtorEq, beq_iff_eq, OfNat.ofNat_ne_one,
      Nat.succ_ne_self] <;>
    cases symtab o.u_value <;> simp

/-- Witness for C5 at a concrete Immediate operand with no symbol. -/
theorem c5_immediate_memory_render_witness :
    ((⟨OperandTypes.Immediate, 0, RegisterOperand.invalid,
        MemoryOperand.default, u64OfInt (-5)⟩ : Operand).type =
          OperandTypes.Immediate ∨
      (⟨OperandTypes.Immediate, 0, RegisterOperand.invalid,
        MemoryOperand.default, u64OfInt (-5)⟩ : Operand).type =
          OperandTypes.Memory) ∧
    Printer.renderOperand (fun _ => none) (fun _ => "")
        ⟨OperandTypes.Immediate, 0, RegisterOperand.invalid,
          MemoryOperand.default, u64OfInt (-5)⟩ =
      some ((((fun _ => none) : SymbolTable)
          (⟨OperandTypes.Immediate, 0, RegisterOperand.invalid,
            MemoryOperand.default, u64OfInt (-5)⟩ : Operand).u_value).getD
        (if (⟨OperandTypes.Immediate, 0, RegisterOperand.invalid,
              MemoryOperand.default, u64OfInt (-5)⟩ : Operand).type =
            OperandTypes.Immediate
         then hexS (⟨OperandTypes.Immediate, 0, RegisterOperand.invalid,
              MemoryOperand.default, u64OfInt (-5)⟩ : Operand).s_value
         else hexU (⟨OperandTypes.Immediate, 0, RegisterOperand.invalid,
              MemoryOperand.default, u64OfInt (-5)⟩ : Operand).u_value)) :=
  ⟨Or.inl rfl, c5_immediate_memory_render _ _ _ (Or.inl rfl)⟩

/-- C6: the concrete round trip — mnemonic `"mov"`, a Register operand
resolving to `"eax"` and a Displacement operand with base resolving to
`"ebx"`, no index and displacement `0x10` with no symbol at that value
renders as `"mov eax, [ebx + 0x10]"`. -/
theorem c6_printer_round_trip :
    Printer.out (fun _ => none)
      (fun r => if r = 0 then "eax" else if r = 1 then "ebx" else "r?")
      (Instruction.disp
        (Instruction.reg { Instruction.default with mnemonic := "mov" } 0 0)
        1 REGISTER_INVALID 1 16) = "mov eax, [ebx + 0x10]" := by
  decide

/-- C7: `Instruction::reset` clears the operand sequence and the type
flags; when a payload and its release routine are present, the release
routine is invoked exactly once and the payload reference is cleared,
and resetting again without assigning a new payload performs no further
release. -/
theorem c7_reset_releases_once (insn : Instruction)
    (hfree : insn.hasFree = true) (hdata : insn.hasUserdata = true) :
    (insn.reset).1.type = 0 ∧ (insn.reset).1.operands = [] ∧
    (insn.reset).2 = 1 ∧ (insn.reset).1.hasUserdata = false ∧
    ((insn.reset).1.reset).2 = 0 := by
  simp [Instruction.reset, hfree, hdata]

/-- Witness for C7 at a concrete instruction carrying a payload. -/
theorem c7_reset_releases_once_witness :
    payloadInsn.hasFree = true ∧
    payloadInsn.hasUserdata = true ∧
    (payloadInsn.reset).1.type = 0 ∧
    (payloadInsn.reset).1.operands = [] ∧
    (payloadInsn.reset).2 = 1 ∧
    (payloadInsn.reset).1.hasUserdata = false ∧
    ((payloadInsn.reset).1.reset).2 = 0 := by
  refine ⟨rfl, rfl, ?_⟩
  have h := c7_reset_releases_once payloadInsn rfl rfl
  exact ⟨h.1, h.2.1, h.2.2.1, h.2.2.2.1, h.2.2.2.2⟩

/-- C10: `Instruction::reset` is frame-preserving outside the type
flags, the operand sequence and the payload reference — the address,
size, mnemonic, signature, comment list, segment back-reference (and
the release routine itself) are unchanged. -/
theorem c10_reset_frame (insn : Instruction) :
    (insn.reset).1.address = insn.address ∧
    (insn.reset).1.size = insn.size ∧
    (insn.reset).1.mnemonic = insn.mnemonic ∧
    (insn.reset).1.signature = insn.signature ∧
    (insn.reset).1.comments = insn.comments ∧
    (insn.reset).1.segment = insn.segment ∧
    (insn.reset).1.hasFree = insn.hasFree := by
  by_cases h : insn.hasFree && insn.hasUserdata <;> simp [Instruction.reset, h]

theorem applyStep_operands (insn : Instruction) (step : BuildStep) :
    ∃ o : Operand, (applyStep insn step).operands = insn.operands ++ [o] ∧
      o.pos = (insn.operands.length : Int) := by
  cases step <;> exact ⟨_, rfl, rfl⟩

theorem pos_invariant_append (l : List Operand) (o : Operand)
    (hinv : ∀ j (hj : j < l.length), (l.get ⟨j, hj⟩).pos = (j : Int))
    (hpos : o.pos = (l.length : Int)) :
    ∀ j (hj : j < (l ++ [o]).length),
      ((l ++ [o]).get ⟨j, hj⟩).pos = (j : Int) := by
  intro j hj
  have hgl : (l ++ [o]).get ⟨j, hj⟩ = (l ++ [o])[j] := rfl
  rw [hgl]
  rcases Nat.lt_or_ge j l.length with hlt | hge
  · have he : (l ++ [o])[j] = l[j] := List.getElem_append_left hlt
    rw [he]
    exact hinv j hlt
  · have hlen : j = l.length := by
      simp only [List.length_append, List.length_cons, List.length_nil] at hj
      omega
    have he : (l ++ [o])[j] = o := List.getElem_concat_length _ _ _ hlen _
    rw [he, hlen]
    exact hpos

theorem build_pos_invariant : ∀ (steps : List BuildStep) (insn : Instruction),
    (∀ j (hj : j < insn.operands.length),
        (insn.operands.get ⟨j, hj⟩).pos = (j : Int)) →
    ∀ j (hj : j < (steps.foldl applyStep insn).operands.length),
      ((steps.foldl applyStep insn).operands.get ⟨j, hj⟩).pos = (j : Int) := by
  intro steps
  induction steps with
  | nil => intro insn h; exact h
  | cons s ss ih =>
    intro insn h
    refine ih (applyStep insn s) ?_
    obtain ⟨o, ho, hpos⟩ := applyStep_operands insn s
    intro j hj
    have hj2 : j < (insn.operands ++ [o]).length := by rw [← ho]; exact hj
    have hget : (applyStep insn s).operands.get ⟨j, hj⟩ =
        (insn.operands ++ [o]).get ⟨j, hj2⟩ := by
      exact List.get_of_eq ho ⟨j, hj⟩
    rw [hget]
    exact pos_invariant_append insn.operands o h hpos j hj2

/-- C9: every builder-style append operation stamps the appended
operand's position field with the number of operands already present,
so after any sequence of appends to a fresh instruction the operand at
index `i` has `pos == i`. -/
theorem c9_builder_positions (steps : List BuildStep) (i : Nat)
    (h : i < (build steps).operands.length) :
    ((build steps).operands.get ⟨i, h⟩).pos = (i : Int) :=
  build_pos_invariant steps Instruction.default
    (by intro j hj; simp [Instruction.default] at hj) i h

theorem readDescriptorFrom_cons_ne (env : ImportNameEnv)
    (flag base w : Nat) (d : ImageImportDescriptor) (dn : String)
    (i : Nat) (t : Nat) (ts : List Nat) (ht : t ≠ 0) :
    readDescriptorFrom env flag base w d dn i (t :: ts) =
      { address := base + (d.FirstThunk + i * w),
        name := resolveThunk env flag dn t,
        kind := SymbolKind.Import } ::
        readDescriptorFrom env flag base w d dn (i + 1) ts := by
  simp [readDescriptorFrom, ht]

theorem readDescriptorFrom_get (env : ImportNameEnv) (flag base w : Nat)
    (d : ImageImportDescriptor) (dn : String) :
    ∀ (ts : List Nat) (i0 j : Nat)
      (h : j < (readDescriptorFrom env flag base w d dn i0 ts).length),
    ∃ hj : j < ts.length,
      (readDescriptorFrom env flag base w d dn i0 ts).get ⟨j, h⟩ =
        { address := base + (d.FirstThunk + (i0 + j) * w),
          name := resolveThunk env flag dn (ts.get ⟨j, hj⟩),
          kind := SymbolKind.Import } ∧ ts.get ⟨j, hj⟩ ≠ 0 := by
  intro ts
  induction ts with
  | nil => intro i0 j h; simp [readDescriptorFrom] at h
  | cons t ts ih =>
    intro i0 j h
    by_cases ht : t = 0
    · rw [ht] at h
      simp [readDescriptorFrom] at h
    · cases j with
      | zero =>
        refine ⟨Nat.succ_pos _, ?_, ht⟩
        have hg : (readDescriptorFrom env flag base w d dn i0 (t :: ts)).get
            ⟨0, h⟩ =
            { address := base + (d.FirstThunk + i0 * w),
              name := resolveThunk env flag dn t,
              kind := SymbolKind.Import } := by
          rw [List.get_of_eq (readDescriptorFrom_cons_ne env flag base w d dn
            i0 t ts ht) ⟨0, h⟩]
          rfl
        rw [hg]
        simp
      | succ j =>
        have hlen : j < (readDescriptorFrom env flag base w d dn
            (i0 + 1) ts).length := by
          have := h
          rw [readDescriptorFrom_cons_ne env flag base w d dn i0 t ts ht]
            at this
          simpa using this
        obtain ⟨hj, hrec, hnz⟩ := ih (i0 + 1) j hlen
        refine ⟨Nat.succ_lt_succ hj, ?_, ?_⟩
        · have hg : (readDescriptorFrom env flag base w d dn i0
              (t :: ts)).get ⟨j + 1, h⟩ =
              (readDescriptorFrom env flag base w d dn (i0 + 1) ts).get
                ⟨j, hlen⟩ := by
            rw [List.get_of_eq (readDescriptorFrom_cons_ne env flag base w d
              dn i0 t ts ht) ⟨j + 1, h⟩]
            rfl
          rw [hg, hrec]
          have harith : i0 + 1 + j = i0 + (j + 1) := by omega
          rw [harith]
          rfl
        · exact hnz

theorem readDescriptorFrom_stops_at_zero (env : ImportNameEnv)
    (flag base w : Nat) (d : ImageImportDescriptor) (dn : String) :
    ∀ (pre : List Nat) (rest : List Nat) (i0 : Nat),
      (∀ t ∈ pre, t ≠ 0) →
      readDescriptorFrom env flag base w d dn i0 (pre ++ 0 :: rest) =
        readDescriptorFrom env flag base w d dn i0 pre := by
  intro pre
  induction pre with
  | nil => intro rest i0 _; simp [readDescriptorFrom]
  | cons p pre ih =>
    intro rest i0 hnz
    have hp : p ≠ 0 := hnz p (List.mem_cons_self p pre)
    rw [List.cons_append,
      readDescriptorFrom_cons_ne env flag base w d dn i0 p _ hp,
      readDescriptorFrom_cons_ne env flag base w d dn i0 p pre hp,
      ih rest (i0 + 1) (fun t htm => hnz t (List.mem_cons_of_mem p htm))]

theorem readDescriptorFrom_length_nonzero (env : ImportNameEnv)
    (flag base w : Nat) (d : ImageImportDescriptor) (dn : String) :
    ∀ (pre : List Nat) (i0 : Nat), (∀ t ∈ pre, t ≠ 0) →
      (readDescriptorFrom env flag base w d dn i0 pre).length =
        pre.length := by
  intro pre
  induction pre with
  | nil => intro i0 _; rfl
  | cons p pre ih =>
    intro i0 hnz
    have hp : p ≠ 0 := hnz p (List.mem_cons_self p pre)
    rw [readDescriptorFrom_cons_ne env flag base w d dn i0 p pre hp]
    simp only [List.length_cons]
    rw [ih (i0 + 1) (fun t htm => hnz t (List.mem_cons_of_mem p htm))]

/-- C1: in `PeFormat::readDescriptor` the thunk values are read from the
table at `OriginalFirstThunk` when it is non-zero and from `FirstThunk`
otherwise, while the `i`-th defined import symbol always sits at
`imagebase + FirstThunk + i * thunk_width`, whichever table the values
were read from. -/
theorem c1_oft_ft_split (env : ImportNameEnv) (flag base w : Nat)
    (thunkTable : Nat → List Nat) (stringAtRva : Nat → String)
    (d : ImageImportDescriptor) (i : Nat)
    (h : i < (readDescriptor env flag base w thunkTable stringAtRva
      d).length) :
    ∃ hi : i < (thunkTable (if d.OriginalFirstThunk ≠ 0 then
        d.OriginalFirstThunk else d.FirstThunk)).length,
      ((readDescriptor env flag base w thunkTable stringAtRva d).get
          ⟨i, h⟩).address = base + d.FirstThunk + i * w ∧
      ((readDescriptor env flag base w thunkTable stringAtRva d).get
          ⟨i, h⟩).name =
        resolveThunk env flag ((stringAtRva d.Name).toLower)
          ((thunkTable (if d.OriginalFirstThunk ≠ 0 then
              d.OriginalFirstThunk else d.FirstThunk)).get ⟨i, hi⟩) := by
  obtain ⟨hi, hget, hnz⟩ := readDescriptorFrom_get env flag base w d
    ((stringAtRva d.Name).toLower) (thunkTable (selectedThunkRva d)) 0 i h
  refine ⟨hi, ?_, ?_⟩
  · have hg : (readDescriptor env flag base w thunkTable stringAtRva d).get
        ⟨i, h⟩ =
        { address := base + (d.FirstThunk + (0 + i) * w),
          name := resolveThunk env flag ((stringAtRva d.Name).toLower)
            ((thunkTable (selectedThunkRva d)).get ⟨i, hi⟩),
          kind := SymbolKind.Import } := hget
    rw [hg]
    show base + (d.FirstThunk + (0 + i) * w) = base + d.FirstThunk + i * w
    rw [Nat.zero_add, Nat.add_assoc]
  · have hg : (readDescriptor env flag base w thunkTable stringAtRva d).get
        ⟨i, h⟩ =
        { address := base + (d.FirstThunk + (0 + i) * w),
          name := resolveThunk env flag ((stringAtRva d.Name).toLower)
            ((thunkTable (selectedThunkRva d)).get ⟨i, hi⟩),
          kind := SymbolKind.Import } := hget
    rw [hg]
    rfl

/-- Witness for C1: a descriptor with distinct `OriginalFirstThunk` and
`FirstThunk`, evaluated at index 1. -/
theorem c1_oft_ft_split_witness :
    1 < (readDescriptor
      ⟨fun _ => "n", fun _ _ => none, fun a b => a ++ "!" ++ b,
        fun a _ => a⟩ (2 ^ 31) 4096 4
      (fun rva => if rva = 100 then [5, 7, 0] else [])
      (fun _ => "KERNEL32.DLL") ⟨100, 50, 200⟩).length ∧
    ∃ hi : 1 < ((fun rva => if rva = 100 then [5, 7, 0] else
        ([] : List Nat)) (if (100 : Nat) ≠ 0 then 100 else 200)).length,
      ((readDescriptor
        ⟨fun _ => "n", fun _ _ => none, fun a b => a ++ "!" ++ b,
          fun a _ => a⟩ (2 ^ 31) 4096 4
        (fun rva => if rva = 100 then [5, 7, 0] else [])
        (fun _ => "KERNEL32.DLL") ⟨100, 50, 200⟩).get
          ⟨1, by decide⟩).address = 4096 + 200 + 1 * 4 ∧
      ((readDescriptor
        ⟨fun _ => "n", fun _ _ => none, fun a b => a ++ "!" ++ b,
          fun a _ => a⟩ (2 ^ 31) 4096 4
        (fun rva => if rva = 100 then [5, 7, 0] else [])
        (fun _ => "KERNEL32.DLL") ⟨100, 50, 200⟩).get
          ⟨1, by decide⟩).name =
        resolveThunk
          ⟨fun _ => "n", fun _ _ => none, fun a b => a ++ "!" ++ b,
            fun a _ => a⟩ (2 ^ 31)
          (((fun _ => "KERNEL32.DLL") (50 : Nat)).toLower)
          (((fun rva => if rva = 100 then [5, 7, 0] else
              ([] : List Nat)) (if (100 : Nat) ≠ 0 then 100 else 200)).get
            ⟨1, by decide⟩) :=
  ⟨by decide, c1_oft_ft_split
    ⟨fun _ => "n", fun _ _ => none, fun a b => a ++ "!" ++ b,
      fun a _ => a⟩ (2 ^ 31) 4096 4
    (fun rva => if rva = 100 then [5, 7, 0] else [])
    (fun _ => "KERNEL32.DLL") ⟨100, 50, 200⟩ 1 (by decide)⟩

/-- C8: for a descriptor whose selected thunk table is a block of
non-zero entries followed by a zero entry, the walk defines exactly one
Import-kind symbol per non-zero entry preceding the zero, in index
order, and nothing for the zero entry or anything after it. -/
theorem c8_walk_terminates (env : ImportNameEnv) (flag base w : Nat)
    (thunkTable : Nat → List Nat) (stringAtRva : Nat → String)
    (d : ImageImportDescriptor) (pre rest : List Nat)
    (hnz : ∀ t ∈ pre, t ≠ 0)
    (htab : thunkTable (selectedThunkRva d) = pre ++ 0 :: rest) :
    (readDescriptor env flag base w thunkTable stringAtRva d).length =
      pre.length ∧
    ∀ j (hj : j < pre.length),
      ∃ hjr : j < (readDescriptor env flag base w thunkTable stringAtRva
          d).length,
        (readDescriptor env flag base w thunkTable stringAtRva d).get
            ⟨j, hjr⟩ =
          { address := base + (d.FirstThunk + j * w),
            name := resolveThunk env flag ((stringAtRva d.Name).toLower)
              (pre.get ⟨j, hj⟩),
            kind := SymbolKind.Import } := by
  have hwalk : readDescriptor env flag base w thunkTable stringAtRva d =
      readDescriptorFrom env flag base w d ((stringAtRva d.Name).toLower)
        0 pre := by
    rw [readDescriptor, htab]
    exact readDescriptorFrom_stops_at_zero env flag base w d _ pre rest 0 hnz
  have hlen : (readDescriptor env flag base w thunkTable stringAtRva
      d).length = pre.length := by
    rw [hwalk]
    exact readDescriptorFrom_length_nonzero env flag base w d _ pre 0 hnz
  refine ⟨hlen, ?_⟩
  intro j hj
  have hjr : j < (readDescriptor env flag base w thunkTable stringAtRva
      d).length := by rw [hlen]; exact hj
  have hjw : j < (readDescriptorFrom env flag base w d
      ((stringAtRva d.Name).toLower) 0 pre).length := by
    rw [← hwalk]; exact hjr
  obtain ⟨hj2, hget, _⟩ := readDescriptorFrom_get env flag base w d
    ((stringAtRva d.Name).toLower) pre 0 j hjw
  refine ⟨hjr, ?_⟩
  have hcast : (readDescriptor env flag base w thunkTable stringAtRva
      d).get ⟨j, hjr⟩ = (readDescriptorFrom env flag base w d
      ((stringAtRva d.Name).toLower) 0 pre).get ⟨j, hjw⟩ := by
    exact List.get_of_eq hwalk ⟨j, hjr⟩
  rw [hcast, hget]
  have harith : 0 + j = j := by omega
  rw [harith]

/-- Witness for C8: two non-zero thunks followed by the terminator. -/
theorem c8_walk_terminates_witness :
    (∀ t ∈ ([5, 7] : List Nat), t ≠ 0) ∧
    ((fun rva => if rva = 100 then [5, 7, 0] else ([] : List Nat))
      (selectedThunkRva ⟨100, 50, 200⟩) = [5, 7] ++ 0 :: []) ∧
    (readDescriptor
      ⟨fun _ => "n", fun _ _ => none, fun a b => a ++ "!" ++ b,
        fun a _ => a⟩ (2 ^ 31) 4096 4
      (fun rva => if rva = 100 then [5, 7, 0] else [])
      (fun _ => "user32.dll") ⟨100, 50, 200⟩).length = 2 :=
  ⟨by decide, by decide,
    (c8_walk_terminates
      ⟨fun _ => "n", fun _ _ => none, fun a b => a ++ "!" ++ b,
        fun a _ => a⟩ (2 ^ 31) 4096 4
      (fun rva => if rva = 100 then [5, 7, 0] else [])
      (fun _ => "user32.dll") ⟨100, 50, 200⟩ [5, 7] []
      (by decide) (by decide)).1⟩

/-- Witness for C9 after appending a register and an immediate. -/
theorem c9_builder_positions_witness :
    1 < (build [BuildStep.regStep 0 0, BuildStep.immStep 5]).operands.length ∧
    ((build [BuildStep.regStep 0 0,
        BuildStep.immStep 5]).operands.get ⟨1, by decide⟩).pos = (1 : Int) :=
  ⟨by decide, c9_builder_positions [BuildStep.regStep 0 0, BuildStep.immStep 5]
    1 (by decide)⟩

theorem outAux_false_eq (symtab : SymbolTable) (regName : Int → String) :
    ∀ l : List Operand, Printer.outAux symtab regName false l =
      sufJoin ", " (l.map (fun o =>
        (Printer.renderOperand symtab regName o).getD "")) := by
  intro l
  induction l with
  | nil => rfl
  | cons o os ih =>
    rw [Printer.outAux, ih, List.map_cons, sufJoin]
    cases hr : Printer.renderOperand symtab regName o <;> simp [hr]

/-- C3 counterexample: an instruction with a Register operand followed
by a `None`-type operand renders with a trailing `", "` — the separator
is emitted before the renderability check, so a skipped operand still
contributes its separator, contradicting the claimed format. -/
theorem c3_out_separator_cex :
    Printer.out (fun _ => none) (fun _ => "r0")
        (Instruction.op
          (Instruction.reg { Instruction.default with mnemonic := "m" } 0 0)
          Operand.default) ≠
      specOut (fun _ => none) (fun _ => "r0")
        (Instruction.op
          (Instruction.reg { Instruction.default with mnemonic := "m" } 0 0)
          Operand.default) := by
  decide

/-- C3 (amended): the output is the mnemonic, a space when the operand
list is non-empty, then the operands' texts joined by `", "` over ALL
operands, a non-renderable operand contributing the empty text — its
separator is still emitted whenever it is not the first operand. -/
theorem c3_out_amended (symtab : SymbolTable) (regName : Int → String)
    (insn : Instruction) :
    Printer.out symtab regName insn =
      insn.mnemonic ++ (if insn.operands.isEmpty then "" else " ") ++
        String.intercalate ", " (insn.operands.map (fun o =>
          (Printer.renderOperand symtab regName o).getD "")) := by
  rw [Printer.out]
  cases hops : insn.operands with
  | nil => rfl
  | cons o os =>
    rw [Printer.outAux, outAux_false_eq, List.map_cons, intercalate_cons]
    cases hr : Printer.renderOperand symtab regName o <;>
      simp [hr, String.append_assoc]

/-- C4 counterexample: a Displacement operand with base `ebx` and
displacement `-8` (no symbol at that value) renders as `"[ebx-0x8]"`,
not as the `" + "`-joined `"[ebx + -0x8]"`: `Printer::mem` emits the
`" + "` separator before the displacement only when the displacement is
positive or a symbol exists at its value. -/
theorem c4_mem_join_cex :
    Printer.mem (fun _ => none) (fun _ => "ebx")
        ⟨⟨0, 1⟩, RegisterOperand.invalid, 1, -8⟩ ≠
      specMem (fun _ => none) (fun _ => "ebx")
        ⟨⟨0, 1⟩, RegisterOperand.invalid, 1, -8⟩ := by
  decide

/-- C4 (amended): provided the backend renders register names as
non-empty strings, `Printer::mem` renders the bracketed `" + "`-join of
the present terms, omitting a zero displacement and yielding `""` when
every component is absent — except that a negative displacement with no
symbol at its value is appended without the `" + "` separator, its
signed hexadecimal rendering carrying the sign. -/
theorem c4_mem_amended (symtab : SymbolTable) (regName : Int → String)
    (memop : MemoryOperand) (hreg : ∀ r, regName r ≠ "") :
    Printer.mem symtab regName memop = specMemAmended symtab regName memop := by
  unfold Printer.mem specMemAmended Printer.reg
  have hxb : ∀ b : String, regName memop.base.r ++ b ≠ "" :=
    fun b => append_ne_empty_left _ b (hreg _)
  have hxi : ∀ b : String, regName memop.index.r ++ b ≠ "" :=
    fun b => append_ne_empty_left _ b (hreg _)
  have hb1 : regName memop.base.r ≠ "" := hreg _
  have hi1 : regName memop.index.r ≠ "" := hreg _
  cases hb : memop.base.isValid <;> cases hi : memop.index.isValid <;>
    simp only [hb, hi, if_true, if_false, Bool.false_eq_true, intercalate_nil,
      intercalate_cons, sufJoin, List.nil_append, List.cons_append,
      String.append_empty, String.empty_append]
  · by_cases hd : memop.displacement = 0
    · simp [hd]
    · cases hsym : symtab (u64OfInt memop.displacement)
      · by_cases hpos : memop.displacement > 0 <;> simp [hd, hsym, hpos]
      · simp [hd, hsym]
  · by_cases hd : memop.displacement = 0
    · simp [hd, hxi, hi1]
    · cases hsym : symtab (u64OfInt memop.displacement)
      · by_cases hpos : memop.displacement > 0 <;>
          simp [hd, hsym, hpos, hxi, hi1, String.append_assoc]
      · simp [hd, hsym, hxi, hi1, String.append_assoc]
  · by_cases hd : memop.displacement = 0
    · simp [hd, hxb, hb1]
    · cases hsym : symtab (u64OfInt memop.displacement)
      · by_cases hpos : memop.displacement > 0 <;>
          simp [hd, hsym, hpos, hxb, hb1, String.append_assoc]
      · simp [hd, hsym, hxb, hb1, String.append_assoc]
  · by_cases hd : memop.displacement = 0
    · simp [hd, hxb, hb1, String.append_assoc]
    · cases hsym : symtab (u64OfInt memop.displacement)
      · by_cases hpos : memop.displacement > 0 <;>
          simp [hd, hsym, hpos, hxb, hb1, String.append_assoc]
      · simp [hd, hsym, hxb, hb1, String.append_assoc]

/-- Witness for C4 (amended) at a base register with a positive
displacement and at the counterexample's negative displacement. -/
theorem c4_mem_amended_witness :
    (∀ r : Int, ((fun _ => "ebx") : Int → String) r ≠ "") ∧
    Printer.mem (fun _ => none) (fun _ => "ebx")
        ⟨⟨0, 1⟩, RegisterOperand.invalid, 1, -8⟩ =
      specMemAmended (fun _ => none) (fun _ => "ebx")
        ⟨⟨0, 1⟩, RegisterOperand.invalid, 1, -8⟩ :=
  ⟨fun r => (by decide : ("ebx" : String) ≠ ""),
    c4_mem_amended (fun _ => none) (fun _ => "ebx")
      ⟨⟨0, 1⟩, RegisterOperand.invalid, 1, -8⟩
      (fun r => (by decide : ("ebx" : String) ≠ ""))⟩

end REDasm
